import Mathlib

/-!
# Verification of the Prexis CPU-task execution pool

Shallow embedding of the `WorkerPool` manager (`src/services/worker.service.ts`,
the second document of `src/unnamed/part_007`) and the worker-side task runner
(`src/services/worker.runner.ts`).

Conventions of the embedding:
* JavaScript values exchanged as task payloads / results are embedded as the
  JSON-like inductive `JVal`.  JS numbers are embedded as `Int` (every numeric
  value the handlers produce on claim-relevant inputs is an integer well below
  2^53, where IEEE double arithmetic is exact); the single genuinely fractional
  field (`avgWordLength` of `textAnalysis`) is embedded exactly as a rational.
* Wall-clock reads (`Date.now()`) are made explicit: functions that read the
  clock take a `now : Int` parameter; elapsed durations are `Nat` parameters.
* The event-driven pool is embedded as a state machine: `execute`, the
  `message` / `error` listeners, the per-task timer and `shutdown` become
  transition functions on `PoolState`; promise resolution/rejection becomes an
  explicit `Outcome` value naming the pending caller.
-/

namespace Prexis

/-- JSON-like values: the payloads and results the pool and the runner
exchange.  `num` embeds integral JS numbers; `rat` embeds the one fractional
value produced by the handlers (exact rational instead of IEEE double). -/
inductive JVal where
  | num (n : Int)
  | rat (q : Rat)
  | str (s : String)
  | bool (b : Bool)
  | null
  | arr (xs : List JVal)
  | obj (fields : List (String × JVal))
deriving Repr

mutual

/-- Decidable equality on `JVal`, by mutual recursion with the element-wise
tests on nested lists. -/
def jvalDecEq (u v : JVal) : Decidable (u = v) := by
  cases u <;> cases v
  case num.num a b =>
    exact dite (a = b) (fun h => isTrue (congrArg JVal.num h))
      (fun h => isFalse (fun hc => h (JVal.num.inj hc)))
  case rat.rat a b =>
    exact dite (a = b) (fun h => isTrue (congrArg JVal.rat h))
      (fun h => isFalse (fun hc => h (JVal.rat.inj hc)))
  case str.str a b =>
    exact dite (a = b) (fun h => isTrue (congrArg JVal.str h))
      (fun h => isFalse (fun hc => h (JVal.str.inj hc)))
  case bool.bool a b =>
    exact dite (a = b) (fun h => isTrue (congrArg JVal.bool h))
      (fun h => isFalse (fun hc => h (JVal.bool.inj hc)))
  case null.null => exact isTrue rfl
  case arr.arr xs ys =>
    refine (jvalListDecEq xs ys).casesOn (fun h => isFalse ?_) (fun h => isTrue ?_)
    · exact fun hc => h (JVal.arr.inj hc)
    · exact congrArg JVal.arr h
  case obj.obj xs ys =>
    refine (jvalFieldsDecEq xs ys).casesOn (fun h => isFalse ?_) (fun h => isTrue ?_)
    · exact fun hc => h (JVal.obj.inj hc)
    · exact congrArg JVal.obj h
  all_goals exact isFalse (fun hc => JVal.noConfusion hc)

/-- Element-wise decidable equality on lists of `JVal`. -/
def jvalListDecEq : (us vs : List JVal) → Decidable (us = vs)
  | [], [] => isTrue rfl
  | [], _ :: _ => isFalse (fun hc => List.noConfusion hc)
  | _ :: _, [] => isFalse (fun hc => List.noConfusion hc)
  | u :: us, v :: vs =>
    match jvalDecEq u v with
    | isFalse h => isFalse (fun hc => h (List.cons.inj hc).1)
    | isTrue h =>
      match jvalListDecEq us vs with
      | isFalse h' => isFalse (fun hc => h' (List.cons.inj hc).2)
      | isTrue h' => isTrue (h ▸ h' ▸ rfl)

/-- Element-wise decidable equality on `JVal` object field lists. -/
def jvalFieldsDecEq : (us vs : List (String × JVal)) → Decidable (us = vs)
  | [], [] => isTrue rfl
  | [], _ :: _ => isFalse (fun hc => List.noConfusion hc)
  | _ :: _, [] => isFalse (fun hc => List.noConfusion hc)
  | (k, u) :: us, (l, v) :: vs =>
    match decEq k l with
    | isFalse h => isFalse (fun hc => h (Prod.mk.inj (List.cons.inj hc).1).1)
    | isTrue h =>
      match jvalDecEq u v with
      | isFalse h' => isFalse (fun hc => h' (Prod.mk.inj (List.cons.inj hc).1).2)
      | isTrue h' =>
        match jvalFieldsDecEq us vs with
        | isFalse h'' => isFalse (fun hc => h'' (List.cons.inj hc).2)
        | isTrue h'' => isTrue (h ▸ h' ▸ h'' ▸ rfl)

end

instance : DecidableEq JVal := jvalDecEq

instance : DecidableEq (Except String JVal) := fun a b =>
  match a, b with
  | .ok x, .ok y =>
    if h : x = y then isTrue (by rw [h])
    else isFalse (by intro hc; injection hc; contradiction)
  | .error x, .error y =>
    if h : x = y then isTrue (by rw [h])
    else isFalse (by intro hc; injection hc; contradiction)
  | .ok _, .error _ => isFalse (by intro hc; cases hc)
  | .error _, .ok _ => isFalse (by intro hc; cases hc)

namespace JVal

/-- Property lookup `o[k]` on an object: first binding wins (our builders never
produce duplicate keys).  `none` models JS `undefined`. -/
def getField : JVal → String → Option JVal
  | .obj fields, k => (fields.find? (fun p => p.fst = k)).map Prod.snd
  | _, _ => none

end JVal

/-- Embeds `WorkerResult` (worker.service.ts / worker.runner.ts): `data` present iff
success, `error` present iff failure, `duration` in milliseconds. -/
structure WorkerResult where
  success : Bool
  data : Option JVal := none
  error : Option String := none
  duration : Nat
deriving DecidableEq, Repr

namespace WorkerPool

/-- Embeds `QueuedTask` (worker.service.ts): a task together with the completion
channel of its pending `execute` promise.  The `resolve`/`reject` continuation
pair is embedded as the identifier `caller` of the pending promise; the task's
payload is irrelevant to pool bookkeeping, so only its `type` string is kept. -/
structure QueuedTask where
  caller : Nat
  ttype : String
deriving DecidableEq, Repr

/-- Resolution of a pending `execute` promise: `resolved` embeds calling the
`resolve` continuation with a `WorkerResult`, `rejected` embeds calling the
`reject` continuation with an `Error` carrying the given message. -/
inductive Outcome where
  | resolved (caller : Nat) (res : WorkerResult)
  | rejected (caller : Nat) (msg : String)
deriving DecidableEq, Repr

/-- The mutable fields of class `WorkerPool`, plus the implicit runtime state
the class keeps outside its own fields:
* `busy` records, per worker, the in-flight task whose `message`/`error`
  listeners and timeout timer are currently armed by `runTask`;
* `terminated` records workers on which `terminate()` has been called (a
  terminated worker thread never emits `message` or `error` again).
Workers are identified by `Nat` ids.  JS array order is kept: `pop` takes the
last element, `push` appends. -/
structure PoolState where
  workers : List Nat
  availableWorkers : List Nat
  taskQueue : List QueuedTask
  busy : List (Nat × QueuedTask)
  terminated : List Nat
  isShutdown : Bool
deriving DecidableEq, Repr

/-- Embeds `Array.prototype.pop`: removes and returns the last element. -/
def jsPop (l : List Nat) : Option Nat × List Nat :=
  (l.getLast?, l.dropLast)

/-- The constructor: `size` workers are created and all of them are pushed to
both `workers` and `availableWorkers`. -/
def initPool (size : Nat) : PoolState :=
  { workers := List.range size
    availableWorkers := List.range size
    taskQueue := []
    busy := []
    terminated := []
    isShutdown := false }

/-- Embeds `runTask` (worker.service.ts lines 383-419): arms the timeout timer and the
`message`/`error` listeners for `qt` on worker `w` and posts the task.  In the
state machine this is recorded as the busy entry `(w, qt)`. -/
def runTask (w : Nat) (qt : QueuedTask) (s : PoolState) : PoolState :=
  { s with busy := (w, qt) :: s.busy }

/-- Embeds `execute` (worker.service.ts lines 361-381): reject when shut down; else
pop an available worker and run the task on it, or append to `taskQueue`.
Returns the new state and the immediate outcome, if any (a dispatched or
queued task stays pending). -/
def execute (qt : QueuedTask) (s : PoolState) : PoolState × Option Outcome :=
  if s.isShutdown then
    (s, some (Outcome.rejected qt.caller "Worker pool is shutdown"))
  else
    match jsPop s.availableWorkers with
    | (some w, rest) =>
      (runTask w qt { s with availableWorkers := rest }, none)
    | (none, _) =>
      ({ s with taskQueue := s.taskQueue ++ [qt] }, none)

/-- Embeds `cleanup` (inside `runTask`): clear the timer, remove the listeners (drop
the busy entry of `w`), then shift the queue — the dequeued head task, if any,
is immediately run on the same worker `w`; otherwise `w` is pushed back to
`availableWorkers`. -/
def cleanup (w : Nat) (s : PoolState) : PoolState :=
  let s' := { s with busy := s.busy.filter (fun p => p.fst ≠ w) }
  match s'.taskQueue with
  | next :: rest =>
    runTask w next { s' with taskQueue := rest }
  | [] =>
    { s' with availableWorkers := s'.availableWorkers ++ [w] }

/-- Busy-entry lookup: the task whose listeners are armed on worker `w`. -/
def busyTask (w : Nat) (s : PoolState) : Option QueuedTask :=
  (s.busy.find? (fun p => p.fst = w)).map Prod.snd

/-- The `message` listener armed by `runTask`: `cleanup()` then
`resolveTask(result)` — the promise resolves with the received `WorkerResult`
whether or not `result.success` holds.  A worker with no armed listeners, or a
terminated worker, emits nothing (no transition). -/
def onMessage (w : Nat) (res : WorkerResult) (s : PoolState) :
    PoolState × Option Outcome :=
  match busyTask w s with
  | some qt =>
    if w ∈ s.terminated then (s, none)
    else (cleanup w s, some (Outcome.resolved qt.caller res))
  | none => (s, none)

/-- The `error` listener armed by `runTask`: `cleanup()` then
`rejectTask(error)`.  Note that `cleanup` hands the failed worker the next
queued task, or returns it to `availableWorkers` — the worker is reused, not
terminated or replaced. -/
def onError (w : Nat) (msg : String) (s : PoolState) :
    PoolState × Option Outcome :=
  match busyTask w s with
  | some qt =>
    if w ∈ s.terminated then (s, none)
    else (cleanup w s, some (Outcome.rejected qt.caller msg))
  | none => (s, none)

/-- The timeout timer armed by `runTask` with delay `this.timeout`: on firing
it calls `worker.terminate()` and rejects the task.  `cleanup` is NOT called:
the queue is not shifted, the worker is not returned to `availableWorkers`,
no replacement worker is constructed, and the dead worker stays in `workers`.
The timer can fire even after pool shutdown (it is never cleared for in-flight
tasks), hence no `terminated` guard. -/
def onTimeout (w : Nat) (timeoutMs : Nat) (s : PoolState) :
    PoolState × Option Outcome :=
  match busyTask w s with
  | some qt =>
    ({ s with
        busy := s.busy.filter (fun p => p.fst ≠ w)
        terminated := w :: s.terminated },
      some (Outcome.rejected qt.caller
        ("Task timeout after " ++ toString timeoutMs ++ "ms")))
  | none => (s, none)

/-- Embeds `shutdown` (worker.service.ts lines 424-438): set `isShutdown`, reject
every queued task with the shutting-down error and clear the queue, terminate
all workers and empty `workers` and `availableWorkers`.  Returns the new state
and the rejections, in queue order. -/
def shutdown (s : PoolState) : PoolState × List Outcome :=
  ({ s with
      isShutdown := true
      taskQueue := []
      workers := []
      availableWorkers := []
      terminated := s.workers ++ s.terminated },
    s.taskQueue.map (fun qt => Outcome.rejected qt.caller "Worker pool is shutting down"))

/-- Embeds `getStatus` (worker.service.ts lines 443-449). -/
structure PoolStatus where
  total : Nat
  available : Nat
  queued : Nat
deriving DecidableEq, Repr

def getStatus (s : PoolState) : PoolStatus :=
  { total := s.workers.length
    available := s.availableWorkers.length
    queued := s.taskQueue.length }

/-- The events that drive the pool: `execute` calls, worker `message`/`error`
emissions, per-task timer firings and `shutdown` calls. -/
inductive Event where
  | submit (qt : QueuedTask)
  | message (w : Nat) (res : WorkerResult)
  | workerError (w : Nat) (msg : String)
  | timeoutFire (w : Nat) (timeoutMs : Nat)
  | shutdownCall
deriving DecidableEq, Repr

/-- One transition of the pool, with the outcomes it delivers. -/
def step (s : PoolState) : Event → PoolState × List Outcome
  | .submit qt =>
    let (s', o) := execute qt s
    (s', o.toList)
  | .message w res =>
    let (s', o) := onMessage w res s
    (s', o.toList)
  | .workerError w msg =>
    let (s', o) := onError w msg s
    (s', o.toList)
  | .timeoutFire w t =>
    let (s', o) := onTimeout w t s
    (s', o.toList)
  | .shutdownCall => shutdown s

/-- Ghost bookkeeping for the FIFO-ordering theorem: the tasks appended to
`taskQueue` (`enq`), the tasks dequeued by `cleanup` and dispatched to a
worker (`disp`), and the tasks cleared (rejected) by `shutdown` (`cleared`),
each in chronological order. -/
structure Ghost where
  enq : List QueuedTask
  disp : List QueuedTask
  cleared : List QueuedTask
deriving DecidableEq, Repr

/-- Ghost update mirroring `step`: it records exactly the queue traffic that
the corresponding transition performs. -/
def stepGhost (s : PoolState) (g : Ghost) : Event → Ghost
  | .submit qt =>
    if s.isShutdown then g
    else
      match jsPop s.availableWorkers with
      | (some _, _) => g
      | (none, _) => { g with enq := g.enq ++ [qt] }
  | .message w _ | .workerError w _ =>
    match busyTask w s with
    | some _ =>
      if w ∈ s.terminated then g
      else
        match s.taskQueue with
        | next :: _ => { g with disp := g.disp ++ [next] }
        | [] => g
    | none => g
  | .timeoutFire _ _ => g
  | .shutdownCall => { g with cleared := g.cleared ++ s.taskQueue }

/-- Runs a sequence of events, threading the state and the ghost record. -/
def runEvents : PoolState → Ghost → List Event → PoolState × Ghost
  | s, g, [] => (s, g)
  | s, g, e :: es => runEvents (step s e).1 (stepGhost s g e) es

/-- The queue-traffic invariant: everything ever enqueued is, in order, what
was dispatched, then what still waits, then what shutdown cleared; clearing
happens only once shut down, and a shut-down pool has an empty queue. -/
def QueueInv (s : PoolState) (g : Ghost) : Prop :=
  g.enq = g.disp ++ s.taskQueue ++ g.cleared
  ∧ (s.isShutdown = false → g.cleared = [])
  ∧ (s.isShutdown = true → s.taskQueue = [])

end WorkerPool

namespace Runner

/-!
Embedding of `src/services/worker.runner.ts`.  Every handler is a function
`JVal → Except String JVal` (plus a `now : Int` clock argument where the source
reads `Date.now()`); `Except.error` embeds a thrown JS exception.  JS
misbehaviour on malformed payloads (NaN propagation, `TypeError`, stack
overflow) is abstracted as a thrown error: on every path it surfaces, like a
genuine throw, as a `success := false` result from the worker main loop.
-/

/-- Embeds `WorkerTask` (worker.runner.ts). -/
structure WorkerTask where
  type : String
  data : JVal
deriving DecidableEq, Repr

/-- Read an integral JS number out of a payload field value. -/
def asInt : Option JVal → Except String Int
  | some (.num n) => .ok n
  | _ => .error "TypeError: expected a number"

/-- Read a string out of a payload field value. -/
def asStr : Option JVal → Except String String
  | some (.str s) => .ok s
  | _ => .error "TypeError: expected a string"

/-- Read a JS array of numbers (`number[]`). -/
def asIntList : Option JVal → Except String (List Int)
  | some (.arr xs) =>
    xs.foldr (fun x acc => do
      match x with
      | .num n => return n :: (← acc)
      | _ => .error "TypeError: expected a number") (.ok [])
  | _ => .error "TypeError: expected an array"

/-- Read a JS matrix (`number[][]`). -/
def asMatrix : Option JVal → Except String (List (List Int))
  | some (.arr rows) =>
    rows.foldr (fun r acc => do
      match r with
      | .arr _ => return (← asIntList (some r)) :: (← acc)
      | _ => .error "TypeError: expected an array") (.ok [])
  | _ => .error "TypeError: expected an array"

/-- The inner `fib` closure of `fibonacci`: recursive Fibonacci on JS numbers
(embedded as `Int`; every value reached from the claims' inputs is integral
and below 2^53, where double arithmetic is exact). -/
def fibRec (num : Int) : Int :=
  if num ≤ 1 then num
  else fibRec (num - 1) + fibRec (num - 2)
termination_by num.toNat
decreasing_by all_goals (simp at *; omega)

/-- Embeds `fibonacci` (worker.runner.ts lines 80-87). -/
def fibonacci (data : JVal) : Except String JVal := do
  let n ← asInt (data.getField "n")
  return .num (fibRec n)

/-- The `for (let i = 2; i <= n; i++)` loop of `fibonacciIterative`: one step
per remaining iteration, carrying the pair `(a, b)`. -/
def fibIterGo : Nat → Int × Int → Int × Int
  | 0, p => p
  | k + 1, (a, b) => fibIterGo k (b, a + b)

/-- The body of `fibonacciIterative` (worker.runner.ts lines 92-103): `a, b`
start at `0, 1`; the loop runs for `i = 2 .. n`, i.e. `(n - 1).toNat` times. -/
def fibIterCore (n : Int) : Int :=
  if n ≤ 1 then n
  else (fibIterGo (n - 1).toNat (0, 1)).2

/-- Embeds `fibonacciIterative` (worker.runner.ts lines 92-103). -/
def fibonacciIterative (data : JVal) : Except String JVal := do
  let n ← asInt (data.getField "n")
  return .num (fibIterCore n)

/-- Embeds `merge` (worker.runner.ts lines 320-338). -/
def merge : List Int → List Int → List Int
  | [], right => right
  | left, [] => left
  | leftVal :: left, rightVal :: right =>
    if leftVal ≤ rightVal then leftVal :: merge left (rightVal :: right)
    else rightVal :: merge (leftVal :: left) right

/-- Embeds `mergeSort` (worker.runner.ts lines 310-318): split at
`mid = floor(len / 2)`, recurse on both slices, merge. -/
def mergeSort (arr : List Int) : List Int :=
  if arr.length ≤ 1 then arr
  else
    let mid := arr.length / 2
    merge (mergeSort (arr.take mid)) (mergeSort (arr.drop mid))
termination_by arr.length
decreasing_by
  · simp at *; omega
  · simp at *; omega

/-- Embeds `heapify` (worker.runner.ts lines 357-371): sift-down at index `i` of the
size-`n` heap prefix.  `arr[x]!` reads are embedded as `getD _ 0` (always in
bounds when called from `heapSort`); the in-place swap assigns
`arr[i] := arr[largest]` and `arr[largest] := arr[i]` from pre-swap values. -/
def heapify (arr : Array Int) (n i : Nat) : Array Int :=
  let largest₁ := if 2 * i + 1 < n ∧ arr.getD (2 * i + 1) 0 > arr.getD i 0 then 2 * i + 1 else i
  if h₂ : 2 * i + 2 < n ∧ arr.getD (2 * i + 2) 0 > arr.getD largest₁ 0 then
    heapify ((arr.setD i (arr.getD (2 * i + 2) 0)).setD (2 * i + 2) (arr.getD i 0)) n (2 * i + 2)
  else if h₁ : largest₁ ≠ i then
    heapify ((arr.setD i (arr.getD largest₁ 0)).setD largest₁ (arr.getD i 0)) n largest₁
  else arr
termination_by n - i
decreasing_by
  · obtain ⟨hlt, -⟩ := h₂
    omega
  · simp only [largest₁] at h₁ ⊢
    by_cases hc : 2 * i + 1 < n ∧ arr.getD (2 * i + 1) 0 > arr.getD i 0
    · rw [dif_pos hc] at h₁ ⊢
      obtain ⟨hlt, -⟩ := hc
      omega
    · rw [dif_neg hc] at h₁
      exact absurd rfl h₁

/-- Fuel-indexed mirror of `heapify`, used only to evaluate it on concrete
inputs (well-founded recursion does not reduce in the kernel); the theorem
`heapify_as_fuel` below proves the two pointwise equal. -/
def heapifyF : Nat → Array Int → Nat → Nat → Array Int
  | 0, arr, _, _ => arr
  | fuel + 1, arr, n, i =>
    let largest₁ := if 2 * i + 1 < n ∧ arr.getD (2 * i + 1) 0 > arr.getD i 0 then 2 * i + 1 else i
    if 2 * i + 2 < n ∧ arr.getD (2 * i + 2) 0 > arr.getD largest₁ 0 then
      heapifyF fuel ((arr.setD i (arr.getD (2 * i + 2) 0)).setD (2 * i + 2) (arr.getD i 0)) n (2 * i + 2)
    else if largest₁ ≠ i then
      heapifyF fuel ((arr.setD i (arr.getD largest₁ 0)).setD largest₁ (arr.getD i 0)) n largest₁
    else arr

/-- Embeds `heapSort` (worker.runner.ts lines 340-355): build the max-heap with
`heapify` from `floor(n/2) - 1` down to `0`, then repeatedly swap the root
with the last unsorted element and re-heapify the shrunk prefix
(`i = n - 1` down to `1`). -/
def heapSortA (arr : Array Int) : Array Int :=
  let n := arr.size
  let built := (List.range (n / 2)).reverse.foldl (fun a i => heapify a n i) arr
  (List.range' 1 (n - 1)).reverse.foldl
    (fun a i => heapify ((a.setD 0 (a.getD i 0)).setD i (a.getD 0 0)) i 0) built

def heapSort (arr : List Int) : List Int :=
  (heapSortA arr.toArray).toList

/-- Embeds `arr.sort((a, b) => a - b)` — the `quick`/default branch of `sortArray`.
V8's sort with this numeric comparator produces the ascending reordering,
which for a list of integers is the unique sorted permutation; it is embedded
as a stable insertion sort. -/
def insertAsc (x : Int) : List Int → List Int
  | [] => [x]
  | y :: ys => if y ≤ x then y :: insertAsc x ys else x :: y :: ys

def sortAsc : List Int → List Int
  | [] => []
  | x :: xs => insertAsc x (sortAsc xs)

/-- Embeds `sortArray` (worker.runner.ts lines 108-120): copies the input, then picks
the algorithm; any `algorithm` value other than the strings `"merge"` and
`"heap"` (including a missing field, via the destructuring default `'quick'`)
falls through to the default branch. -/
def sortArray (data : JVal) : Except String JVal := do
  let array ← asIntList (data.getField "array")
  let sorted :=
    match data.getField "algorithm" with
    | some (.str "merge") => mergeSort array
    | some (.str "heap") => heapSort array
    | _ => sortAsc array
  return .arr (sorted.map JVal.num)

/-- Embeds `isPrime` (worker.runner.ts lines 125-135): trial division by odd numbers
`3, 5, …` up to `Math.sqrt n`; for integer `i`, `i <= Math.sqrt n` is
`i ≤ Nat.sqrt n`. -/
def isPrimeCore (n : Int) : Bool :=
  if n < 2 then false
  else if n = 2 then true
  else if n % 2 = 0 then false
  else
    let s := Nat.sqrt n.toNat
    ! (List.range' 3 ((s - 1) / 2) 2).any (fun i => n % (i : Int) = 0)

def isPrime (data : JVal) : Except String JVal := do
  let n ← asInt (data.getField "n")
  return .bool (isPrimeCore n)

/-- The inner `for (let j = i * i; j <= max; j += i)` loop of
`generatePrimes`: the visited indices. -/
def sieveMultiples (i max : Nat) : List Nat :=
  if i * i ≤ max ∧ 0 < i then List.range' (i * i) ((max - i * i) / i + 1) i
  else []

/-- Embeds `generatePrimes` (worker.runner.ts lines 140-158): sieve of Eratosthenes
over `0 .. max`; the outer loop runs `i = 2 .. Math.sqrt max` and, when
`sieve[i]` still holds, clears every multiple from `i * i` on.  A negative
`max` makes `new Array(max + 1)` throw a `RangeError`. -/
def generatePrimesCore (max : Nat) : List Nat :=
  let sieve0 := ((Array.mkArray (max + 1) true).setD 0 false).setD 1 false
  let sieve := (List.range' 2 (Nat.sqrt max - 1)).foldl
    (fun sv i =>
      if sv.getD i false then
        (sieveMultiples i max).foldl (fun sv' j => sv'.setD j false) sv
      else sv)
    sieve0
  (List.range (max + 1)).filter (fun i => sieve.getD i false)

def generatePrimes (data : JVal) : Except String JVal := do
  let max ← asInt (data.getField "max")
  if max < 0 then .error "RangeError: Invalid array length"
  else return .arr ((generatePrimesCore max.toNat).map (fun i => JVal.num (i : Int)))

/-- Embeds `node:crypto`'s `createHash(algorithm).update(input).digest('hex')` is an
external deterministic primitive; it is modelled abstractly as a fixed pure
injection of `(algorithm, input)` into strings, which preserves exactly the
property the claims rely on (statelessness / determinism). -/
def createHashDigest (algorithm input : String) : String :=
  "digest[" ++ algorithm ++ "](" ++ input ++ ")"

/-- The body of `computeHash` (worker.runner.ts lines 163-172): iterate the
digest.  A non-positive (or coerced-NaN) iteration count runs the loop zero
times. -/
def computeHashCore (input : String) (iterations : Int) (algorithm : String) : String :=
  (List.range iterations.toNat).foldl (fun result _ => createHashDigest algorithm result) input

/-- Destructuring defaults of `computeHash`: `iterations = 10000`,
`algorithm = 'sha256'` apply only when the field is absent; a present
non-number `iterations` coerces to a zero-iteration loop and a present
non-string `algorithm` is abstracted by its printed form. -/
def hashArgs (data : JVal) : Int × String :=
  let iterations := match data.getField "iterations" with
    | none => 10000
    | some (.num n) => n
    | some _ => 0
  let algorithm := match data.getField "algorithm" with
    | none => "sha256"
    | some (.str s) => s
    | some _ => "non-string-algorithm"
  (iterations, algorithm)

def computeHash (data : JVal) : Except String JVal := do
  let input ← asStr (data.getField "input")
  let (iterations, algorithm) := hashArgs data
  return .str (computeHashCore input iterations algorithm)

/-- Embeds `verifyHash` (worker.runner.ts lines 177-181): recompute with the same
(possibly absent, hence defaulted) `iterations`/`algorithm` and compare. -/
def verifyHash (data : JVal) : Except String JVal := do
  let input ← asStr (data.getField "input")
  let hash ← asStr (data.getField "hash")
  let (iterations, algorithm) := hashArgs data
  return .bool (computeHashCore input iterations algorithm = hash)

/-- Embeds `{ ...item, k₁: v₁, … }`: each overriding key keeps its original position
(and takes the new value) when already present, otherwise is appended. -/
def objAssign (fields : List (String × JVal)) (extra : List (String × JVal)) :
    List (String × JVal) :=
  extra.foldl
    (fun fs kv =>
      if fs.any (fun p => p.fst = kv.fst) then
        fs.map (fun p => if p.fst = kv.fst then (p.fst, kv.snd) else p)
      else fs ++ [kv])
    fields

/-- Spreading a JS array into an object literal yields its elements under
their index keys. -/
def arrToFields (xs : List JVal) : List (String × JVal) :=
  xs.enum.map (fun p => (toString p.1, p.2))

/-- One `items.map` step of the `enrich` transform (worker.runner.ts lines
191-201): objects (arrays included — `typeof [] === 'object'`) are spread and
stamped, primitives are wrapped in `{ value: item, … }`; the stamp includes
the wall clock `_timestamp: Date.now()`. -/
def enrichItem (now : Int) (index : Nat) (item : JVal) : JVal :=
  let stamp := [("_index", JVal.num (index : Int)),
                ("_timestamp", JVal.num now),
                ("_processed", JVal.bool true)]
  match item with
  | .obj fields => .obj (objAssign fields stamp)
  | .arr xs => .obj (objAssign (arrToFields xs) stamp)
  | other => .obj (objAssign [("value", other)] stamp)

mutual

/-- Deep flattening of one element, for `items.flat(Infinity)`. -/
def flatOne : JVal → List JVal
  | .arr xs => flatList xs
  | v => [v]

/-- Deep flattening of a list, for `items.flat(Infinity)`. -/
def flatList : List JVal → List JVal
  | [] => []
  | x :: xs => flatOne x ++ flatList xs

end

/-- Embeds `processJson` (worker.runner.ts lines 186-209).  The `transform` switch:
a missing field defaults to `'enrich'`; the strings `'enrich'`, `'filter'`,
`'flatten'` select their branches; anything else falls through to the default
branch returning `items` unchanged. -/
def processJson (data : JVal) (now : Int) : Except String JVal := do
  let items ← match data.getField "items" with
    | some (.arr xs) => .ok xs
    | _ => .error "TypeError: items is not an array"
  match data.getField "transform" with
  | none | some (.str "enrich") =>
    return .arr (items.enum.map (fun p => enrichItem now p.1 p.2))
  | some (.str "filter") =>
    return .arr (items.filter (fun item => item ≠ .null))
  | some (.str "flatten") =>
    return .arr (flatList items)
  | some _ =>
    return .arr items

/-- Embeds `matrixMultiply` (worker.runner.ts lines 214-239): dimension check
`colsA !== b.length` throws; the triple loop accumulates
`result[i][j] += (a[i]?.[k] ?? 0) * (b[k]?.[j] ?? 0)`. -/
def matrixMultiplyCore (a b : List (List Int)) : Except String (List (List Int)) :=
  let rowsA := a.length
  let colsA := (a.headD []).length
  let colsB := (b.headD []).length
  if colsA ≠ b.length then
    .error "Matrix dimensions do not match for multiplication"
  else
    .ok ((List.range rowsA).map (fun i =>
      (List.range colsB).map (fun j =>
        (List.range colsA).foldl
          (fun acc k => acc + ((a.getD i []).getD k 0) * ((b.getD k []).getD j 0)) 0)))

def matrixMultiply (data : JVal) : Except String JVal := do
  let a ← asMatrix (data.getField "a")
  let b ← asMatrix (data.getField "b")
  let result ← matrixMultiplyCore a b
  return .arr (result.map (fun row => .arr (row.map JVal.num)))

/-- JS `ToInt32` (the implicit conversion of the `>>`, `&`, `|` operands). -/
def toInt32 (n : Int) : Int :=
  ((n + 2 ^ 31) % 2 ^ 32) - 2 ^ 31

/-- One pixel of `grayscale` (worker.runner.ts lines 244-255): extract the
8-bit channels with shifts and masks (arithmetic shift right is floor
division), round the weighted sum (`Math.round(x) = ⌊x + 1/2⌋`, computed
exactly on the integer channels), and repack. -/
def grayscalePixel (pixel : Int) : Int :=
  let p := toInt32 pixel
  let r := (p.fdiv 65536) % 256
  let g := (p.fdiv 256) % 256
  let b := p % 256
  let gray := (299 * r + 587 * g + 114 * b + 500).fdiv 1000
  gray * 65536 + gray * 256 + gray

def grayscale (data : JVal) : Except String JVal := do
  let pixels ← asMatrix (data.getField "pixels")
  return .arr (pixels.map (fun row => .arr (row.map (fun p => JVal.num (grayscalePixel p)))))

/-- Embeds `\w` of the word regex: ASCII letters, digits, underscore. -/
def isWordChar (c : Char) : Bool :=
  c.isAlpha || c.isDigit || c = '_'

/-- Embeds `text.toLowerCase().match(/\b\w+\b/g)`: the maximal runs of word
characters of the lowercased text (ASCII lowercasing; the claims use ASCII
text only). -/
def wordsOf (text : String) : List String :=
  let chars := text.data.map Char.toLower
  let step := fun (acc : List String × List Char) (c : Char) =>
    if isWordChar c then (acc.1, acc.2 ++ [c])
    else if acc.2 = [] then (acc.1, [])
    else (acc.1 ++ [String.mk acc.2], [])
  let (runs, last) := chars.foldl step ([], [])
  if last = [] then runs else runs ++ [String.mk last]

/-- Embeds `wordFreq[word] = (wordFreq[word] ?? 0) + 1` over an insertion-ordered
association list. -/
def bumpFreq (freq : List (String × Int)) (word : String) : List (String × Int) :=
  if freq.any (fun p => p.fst = word) then
    freq.map (fun p => if p.fst = word then (p.fst, p.snd + 1) else p)
  else freq ++ [(word, 1)]

/-- A key is an array-index-like property key (canonical decimal below
2^32 - 1); such keys come first, in ascending numeric order, in
`Object.entries`. -/
def isIndexKey (s : String) : Bool :=
  match s.toNat? with
  | some n => toString n = s && n < 4294967295
  | none => false

/-- Embeds `Object.entries(wordFreq)`: index-like keys ascending, then the remaining
keys in insertion order. -/
def jsEntries (freq : List (String × Int)) : List (String × Int) :=
  let idx := (freq.filter (fun p => isIndexKey p.fst)).mergeSort
    (fun p q => (p.fst.toNat?.getD 0) ≤ (q.fst.toNat?.getD 0))
  idx ++ freq.filter (fun p => ¬ isIndexKey p.fst)

/-- Embeds `.sort((a, b) => b[1] - a[1])`: stable sort by count, descending
(insertion based: an element moves left past strictly smaller counts only). -/
def insertByCountDesc (x : String × Int) : List (String × Int) → List (String × Int)
  | [] => [x]
  | y :: ys => if y.snd > x.snd then y :: insertByCountDesc x ys else x :: y :: ys

def sortByCountDesc : List (String × Int) → List (String × Int)
  | [] => []
  | x :: xs => insertByCountDesc x (sortByCountDesc xs)

/-- Embeds `textAnalysis` (worker.runner.ts lines 260-284).  `avgWordLength` is the
exact rational value of the JS float division. -/
def textAnalysis (data : JVal) : Except String JVal := do
  let text ← asStr (data.getField "text")
  let words := wordsOf text
  let wordFreq := words.foldl bumpFreq []
  let sortedWords := (sortByCountDesc (jsEntries wordFreq)).take 100
  let totalLen : Int := words.foldl (fun sum w => sum + (w.length : Int)) 0
  return .obj
    [("totalWords", .num (words.length : Int)),
     ("uniqueWords", .num (wordFreq.length : Int)),
     ("avgWordLength",
       .rat (if words.length > 0 then (totalLen : Rat) / (words.length : Rat) else 0)),
     ("topWords", .arr (sortedWords.map (fun p => .arr [.str p.fst, .num p.snd])))]

/-- The `for (let i = 1; i <= input.length; i++)` loop of `compress`, carrying
the previous character and the current run length: emit
`count > 1 ? count + char : char` at each run boundary. -/
def compressGo : List Char → Char → Nat → String
  | [], prev, count =>
    (if count > 1 then toString count else "") ++ String.singleton prev
  | c :: cs, prev, count =>
    if c = prev then compressGo cs prev (count + 1)
    else ((if count > 1 then toString count else "") ++ String.singleton prev)
      ++ compressGo cs c 1

/-- Embeds `compress` (worker.runner.ts lines 289-306): run-length encoding.  Every
falsy or non-string `input` (via `if (!input) return ''` and the loop bound
`input.length`) yields the empty string. -/
def compress (data : JVal) : Except String JVal :=
  match data.getField "input" with
  | some (.str s) =>
    match s.data with
    | [] => .ok (.str "")
    | c :: cs => .ok (.str (compressGo cs c 1))
  | _ => .ok (.str "")

/-- Embeds `taskHandlers` (worker.runner.ts lines 377-390): the handler catalogue.
Each handler gets the clock argument; only `processJson` reads it. -/
def taskHandlers (ttype : String) : Option (JVal → Int → Except String JVal) :=
  match ttype with
  | "fibonacci" => some (fun d _ => fibonacci d)
  | "fibonacciIterative" => some (fun d _ => fibonacciIterative d)
  | "sort" => some (fun d _ => sortArray d)
  | "isPrime" => some (fun d _ => isPrime d)
  | "generatePrimes" => some (fun d _ => generatePrimes d)
  | "hash" => some (fun d _ => computeHash d)
  | "verifyHash" => some (fun d _ => verifyHash d)
  | "processJson" => some processJson
  | "matrixMultiply" => some (fun d _ => matrixMultiply d)
  | "grayscale" => some (fun d _ => grayscale d)
  | "textAnalysis" => some (fun d _ => textAnalysis d)
  | "compress" => some (fun d _ => compress d)
  | _ => none

/-- The keys of `taskHandlers`, in declaration order. -/
def registeredTypes : List String :=
  ["fibonacci", "fibonacciIterative", "sort", "isPrime", "generatePrimes",
   "hash", "verifyHash", "processJson", "matrixMultiply", "grayscale",
   "textAnalysis", "compress"]

/-- The `parentPort.on('message', …)` main loop (worker.runner.ts lines
394-425): look up the handler — a miss posts the value-level
`Unknown task type` failure; a normal return posts success; a thrown error is
caught and posted as a value-level failure.  `duration` is the elapsed wall
clock `Date.now() - startTime`, a nonnegative parameter here. -/
def runnerOnMessage (task : WorkerTask) (now : Int) (elapsed : Nat) : WorkerResult :=
  match taskHandlers task.type with
  | none =>
    { success := false
      error := some ("Unknown task type: " ++ task.type)
      duration := elapsed }
  | some handler =>
    match handler task.data now with
    | .ok result => { success := true, data := some result, duration := elapsed }
    | .error msg => { success := false, error := some msg, duration := elapsed }

end Runner

/-!
## Theorems

Helper lemmas first, then one theorem per claim (with witnesses and
counterexamples where required).
-/

open WorkerPool Runner

/-- One loop iteration of `fibonacciIterative` shifts the carried pair. -/
theorem fibIterGo_shift (k : Nat) : ∀ a b : Int,
    fibIterGo k (b, a + b)
      = ((fibIterGo k (a, b)).2, (fibIterGo k (a, b)).1 + (fibIterGo k (a, b)).2) := by
  induction k with
  | zero => intro a b; rfl
  | succ k ih =>
    intro a b
    show fibIterGo k (a + b, b + (a + b)) = _
    have h₂ := ih b (a + b)
    simp only [fibIterGo]
    rw [h₂]

/-- Unfolding `fibIterCore` at a successor argument. -/
theorem iterCore_succ (k : Nat) : fibIterCore ((k : Int) + 1) = (fibIterGo k (0, 1)).2 := by
  cases k with
  | zero => rfl
  | succ k =>
    unfold fibIterCore
    rw [if_neg (by push_cast; omega)]
    have h₃ : (((k + 1 : Nat) : Int) + 1 - 1).toNat = k + 1 := by push_cast; omega
    rw [h₃]

/-- The first component of the loop state is the previous iterate. -/
theorem iterCore_fst (m : Nat) : (fibIterGo m (0, 1)).1 = fibIterCore (m : Int) := by
  induction m with
  | zero => rfl
  | succ k _ =>
    have hs := fibIterGo_shift k 0 1
    simp only [zero_add] at hs
    show (fibIterGo k (1, 0 + 1)).1 = _
    simp only [zero_add]
    rw [hs]
    have h₄ := iterCore_succ k
    rw [show ((k + 1 : Nat) : Int) = (k : Int) + 1 by push_cast; ring]
    exact h₄.symm

/-- The loop values satisfy the Fibonacci recurrence. -/
theorem iterCore_rec (k : Nat) :
    (fibIterGo (k + 1) (0, 1)).2 = (fibIterGo k (0, 1)).1 + (fibIterGo k (0, 1)).2 := by
  have hs := fibIterGo_shift k 0 1
  simp only [zero_add] at hs
  show (fibIterGo k (1, 0 + 1)).2 = _
  simp only [zero_add]
  rw [hs]

/-- The recursive and iterative Fibonacci bodies agree on every natural
input. -/
theorem fib_agrees (n : Nat) : fibRec (n : Int) = fibIterCore (n : Int) := by
  induction n using Nat.strong_induction_on with
  | _ n ih =>
    match n with
    | 0 => rw [Runner.fibRec]; norm_num [fibIterCore]
    | 1 => rw [Runner.fibRec]; norm_num [fibIterCore]
    | (m + 2) =>
      have e₁ : fibRec ((m + 2 : Nat) : Int)
          = fibRec ((m + 1 : Nat) : Int) + fibRec ((m : Nat) : Int) := by
        rw [Runner.fibRec]
        rw [if_neg (by push_cast; omega)]
        congr 1 <;> push_cast <;> ring_nf
      rw [e₁, ih (m + 1) (by omega), ih m (by omega)]
      have e₂ : fibIterCore ((m + 2 : Nat) : Int) = (fibIterGo (m + 1) (0, 1)).2 := by
        have h₅ := iterCore_succ (m + 1)
        rw [show ((m + 2 : Nat) : Int) = ((m + 1 : Nat) : Int) + 1 by push_cast; ring]
        exact h₅
      rw [e₂, iterCore_rec m, iterCore_fst m]
      have e₃ : fibIterCore ((m + 1 : Nat) : Int) = (fibIterGo m (0, 1)).2 := by
        have h₆ := iterCore_succ m
        rw [show ((m + 1 : Nat) : Int) = ((m : Nat) : Int) + 1 by push_cast; ring]
        exact h₆
      rw [e₃]
      ring

/-- Concrete value of the recursive Fibonacci at 10. -/
theorem fibRec_ten : fibRec 10 = 55 := by
  have h₇ := fib_agrees 10
  norm_num at h₇
  rw [h₇]
  decide

/-- Evaluation of `Nat.sqrt` at 30 (it does not reduce in the kernel). -/
theorem sqrt_thirty : Nat.sqrt 30 = 5 :=
  (Nat.eq_sqrt.mpr (by norm_num)).symm

/-- The sieve applied to 30 produces exactly the primes up to 30. -/
theorem generatePrimesCore_thirty :
    generatePrimesCore 30 = [2, 3, 5, 7, 11, 13, 17, 19, 23, 29] := by
  simp only [generatePrimesCore, sqrt_thirty]
  decide

/-- Concrete evaluation of the source's `mergeSort`. -/
theorem mergeSort_eval : mergeSort [3, 1, 2] = [1, 2, 3] := by
  rw [mergeSort]
  norm_num [merge]
  rw [mergeSort, mergeSort]
  norm_num [merge]
  rw [mergeSort, mergeSort]
  norm_num [merge]

/-- The fuel mirror computes `heapify` whenever given enough fuel. -/
theorem heapifyF_eq (fuel : Nat) : ∀ arr n i, n - i ≤ fuel →
    heapifyF (fuel + 1) arr n i = heapify arr n i := by
  induction fuel with
  | zero =>
    intro arr n i h
    rw [heapifyF, heapify]
    have hc₂ : ¬ (2 * i + 2 < n ∧ arr.getD (2 * i + 2) 0 >
        arr.getD (if 2 * i + 1 < n ∧ arr.getD (2 * i + 1) 0 > arr.getD i 0 then 2 * i + 1 else i) 0) := by
      intro hcc
      omega
    have hc₁ : (if 2 * i + 1 < n ∧ arr.getD (2 * i + 1) 0 > arr.getD i 0 then 2 * i + 1 else i) = i := by
      rw [if_neg]
      intro hcc
      omega
    rw [if_neg hc₂, dif_neg hc₂]
    rw [hc₁]
    simp
  | succ fuel ih =>
    intro arr n i h
    rw [heapifyF, heapify]
    by_cases hc₂ : 2 * i + 2 < n ∧ arr.getD (2 * i + 2) 0 >
        arr.getD (if 2 * i + 1 < n ∧ arr.getD (2 * i + 1) 0 > arr.getD i 0 then 2 * i + 1 else i) 0
    · rw [if_pos hc₂, dif_pos hc₂]
      exact ih _ n (2 * i + 2) (by omega)
    · rw [if_neg hc₂, dif_neg hc₂]
      by_cases hcnd : 2 * i + 1 < n ∧ arr.getD (2 * i + 1) 0 > arr.getD i 0
      · rw [if_pos hcnd]
        obtain ⟨hlt, -⟩ := hcnd
        rw [if_pos (by omega : 2 * i + 1 ≠ i), dif_pos (by omega : 2 * i + 1 ≠ i)]
        exact ih _ n (2 * i + 1) (by omega)
      · rw [if_neg hcnd]
        rw [if_neg (by simp : ¬ (i ≠ i)), dif_neg (by simp : ¬ (i ≠ i))]

/-- Every `heapify` call equals its fuel mirror at fuel `n - i + 1`. -/
theorem heapify_as_fuel (arr : Array Int) (n i : Nat) :
    heapify arr n i = heapifyF (n - i + 1) arr n i :=
  (heapifyF_eq (n - i) arr n i (Nat.le_refl _)).symm

/-- Concrete evaluation of the source's `heapSort`. -/
theorem heapSort_eval : heapSort [3, 1, 2] = [1, 2, 3] := by
  simp only [heapSort, heapSortA, heapify_as_fuel]
  decide

/-- Concrete evaluation of the default-branch sort. -/
theorem sortAsc_eval : sortAsc [3, 1, 2] = [1, 2, 3] := by decide

/-- C10: for every natural number `n`, the recursive `fibonacci` handler and
the iterative `fibonacciIterative` handler return the same value on the
payload `{n}`: the two embeddings are pointwise equal. -/
theorem c10_fibonacci_handlers_agree (n : Nat) :
    Runner.fibonacci (.obj [("n", .num (n : Int))])
      = fibonacciIterative (.obj [("n", .num (n : Int))]) := by
  have h₁ : Runner.fibonacci (.obj [("n", .num (n : Int))])
      = .ok (.num (fibRec (n : Int))) := rfl
  have h₂ : fibonacciIterative (.obj [("n", .num (n : Int))])
      = .ok (.num (fibIterCore (n : Int))) := rfl
  rw [h₁, h₂, fib_agrees n]

/-- C8: for every claim-listed registered task type, executing a valid payload
returns `success = true` with `data` equal to the reference computation:
`fibonacci(10) = 55`; sorting `[3,1,2]` gives `[1,2,3]` under the `quick`,
`merge` and `heap` algorithms; `generatePrimes(30)` yields exactly the primes
up to 30; run-length compression of `"aaabbbccd"` is `"3a3b2cd"`. -/
theorem c8_reference_values :
    runnerOnMessage ⟨"fibonacci", .obj [("n", .num 10)]⟩ 0 1
      = { success := true, data := some (.num 55), error := none, duration := 1 }
    ∧ runnerOnMessage ⟨"sort", .obj [("array", .arr [.num 3, .num 1, .num 2]),
          ("algorithm", .str "quick")]⟩ 0 1
      = { success := true, data := some (.arr [.num 1, .num 2, .num 3]),
          error := none, duration := 1 }
    ∧ runnerOnMessage ⟨"sort", .obj [("array", .arr [.num 3, .num 1, .num 2]),
          ("algorithm", .str "merge")]⟩ 0 1
      = { success := true, data := some (.arr [.num 1, .num 2, .num 3]),
          error := none, duration := 1 }
    ∧ runnerOnMessage ⟨"sort", .obj [("array", .arr [.num 3, .num 1, .num 2]),
          ("algorithm", .str "heap")]⟩ 0 1
      = { success := true, data := some (.arr [.num 1, .num 2, .num 3]),
          error := none, duration := 1 }
    ∧ runnerOnMessage ⟨"generatePrimes", .obj [("max", .num 30)]⟩ 0 1
      = { success := true,
          data := some (.arr [.num 2, .num 3, .num 5, .num 7, .num 11, .num 13,
            .num 17, .num 19, .num 23, .num 29]),
          error := none, duration := 1 }
    ∧ runnerOnMessage ⟨"compress", .obj [("input", .str "aaabbbccd")]⟩ 0 1
      = { success := true, data := some (.str "3a3b2cd"), error := none, duration := 1 } := by
  refine ⟨?_, ?_, ?_, ?_, ?_, ?_⟩
  · rw [show runnerOnMessage ⟨"fibonacci", .obj [("n", .num 10)]⟩ 0 1
        = { success := true, data := some (.num (fibRec 10)), error := none, duration := 1 }
      from rfl, fibRec_ten]
  · decide
  · rw [show runnerOnMessage ⟨"sort", .obj [("array", .arr [.num 3, .num 1, .num 2]),
          ("algorithm", .str "merge")]⟩ 0 1
        = { success := true, data := some (.arr ((mergeSort [3, 1, 2]).map JVal.num)),
            error := none, duration := 1 }
      from rfl, mergeSort_eval]
    decide
  · rw [show runnerOnMessage ⟨"sort", .obj [("array", .arr [.num 3, .num 1, .num 2]),
          ("algorithm", .str "heap")]⟩ 0 1
        = { success := true, data := some (.arr ((heapSort [3, 1, 2]).map JVal.num)),
            error := none, duration := 1 }
      from rfl, heapSort_eval]
    decide
  · rw [show runnerOnMessage ⟨"generatePrimes", .obj [("max", .num 30)]⟩ 0 1
        = { success := true,
            data := some (.arr ((generatePrimesCore 30).map (fun i => JVal.num (i : Int)))),
            error := none, duration := 1 }
      from rfl, generatePrimesCore_thirty]
    decide
  · decide

/-- C9: a `matrixMultiply` task whose inner dimensions do not match (`a` is
2×3, `b` is 2×2) yields a value-level `success = false` result carrying the
dimension-mismatch message (the thrown error is caught by the worker main
loop), and the pool's `message` listener resolves — not rejects — the pending
`execute` promise with it. -/
theorem c9_matrix_dimension_mismatch :
    runnerOnMessage ⟨"matrixMultiply",
        .obj [("a", .arr [.arr [.num 1, .num 2, .num 3], .arr [.num 4, .num 5, .num 6]]),
              ("b", .arr [.arr [.num 1, .num 2], .arr [.num 3, .num 4]])]⟩ 0 2
      = { success := false, data := none,
          error := some "Matrix dimensions do not match for multiplication", duration := 2 }
    ∧ (onMessage 0
        (runnerOnMessage ⟨"matrixMultiply",
          .obj [("a", .arr [.arr [.num 1, .num 2, .num 3], .arr [.num 4, .num 5, .num 6]]),
                ("b", .arr [.arr [.num 1, .num 2], .arr [.num 3, .num 4]])]⟩ 0 2)
        ⟨[0], [], [], [(0, ⟨7, "matrixMultiply"⟩)], [], false⟩).2
      = some (Outcome.resolved 7
          { success := false, data := none,
            error := some "Matrix dimensions do not match for multiplication", duration := 2 }) := by
  decide

/-- C6: for every type string outside the handler catalogue, the worker posts
a value-level failure whose error names the unknown type and whose duration is
the (nonnegative) elapsed time, and the pool's `message` listener resolves the
pending `execute` promise with that result — value-level failures are
returned, never thrown. -/
theorem c6_unknown_type (task : WorkerTask) (now : Int) (elapsed : Nat)
    (w : Nat) (s : PoolState) (qt : QueuedTask)
    (h : task.type ∉ registeredTypes)
    (hb : busyTask w s = some qt) (ht : w ∉ s.terminated) :
    runnerOnMessage task now elapsed
      = { success := false, data := none,
          error := some ("Unknown task type: " ++ task.type), duration := elapsed }
    ∧ 0 ≤ (runnerOnMessage task now elapsed).duration
    ∧ onMessage w (runnerOnMessage task now elapsed) s
      = (cleanup w s, some (Outcome.resolved qt.caller (runnerOnMessage task now elapsed))) := by
  have hnone : taskHandlers task.type = none := by
    unfold taskHandlers
    split <;> simp_all [registeredTypes]
  refine ⟨?_, Nat.zero_le _, ?_⟩
  · simp [runnerOnMessage, hnone]
  · simp [onMessage, hb, ht]

/-- Witness for C6 at the unregistered type `"nope"`. -/
theorem c6_unknown_type_witness :
    ("nope" ∉ registeredTypes)
    ∧ (busyTask 0 ⟨[0], [], [], [(0, ⟨7, "nope"⟩)], [], false⟩ = some ⟨7, "nope"⟩)
    ∧ (runnerOnMessage ⟨"nope", JVal.null⟩ 0 3
        = { success := false, data := none,
            error := some ("Unknown task type: " ++ "nope"), duration := 3 }
      ∧ 0 ≤ (runnerOnMessage ⟨"nope", JVal.null⟩ 0 3).duration
      ∧ onMessage 0 (runnerOnMessage ⟨"nope", JVal.null⟩ 0 3)
            ⟨[0], [], [], [(0, ⟨7, "nope"⟩)], [], false⟩
          = (cleanup 0 ⟨[0], [], [], [(0, ⟨7, "nope"⟩)], [], false⟩,
            some (Outcome.resolved 7 (runnerOnMessage ⟨"nope", JVal.null⟩ 0 3)))) :=
  ⟨by decide, by decide,
    c6_unknown_type ⟨"nope", JVal.null⟩ 0 3 0
      ⟨[0], [], [], [(0, ⟨7, "nope"⟩)], [], false⟩ ⟨7, "nope"⟩
      (by decide) (by decide) (by decide)⟩

/-- C4: a task submitted after shutdown is rejected immediately with the
"Worker pool is shutdown" error and the pool state — hence `getStatus` — is
unchanged: nothing is enqueued and no worker is taken. -/
theorem c4_execute_after_shutdown (s : PoolState) (qt : QueuedTask)
    (h : s.isShutdown = true) :
    execute qt s = (s, some (Outcome.rejected qt.caller "Worker pool is shutdown"))
    ∧ getStatus (execute qt s).1 = getStatus s := by
  constructor
  · simp [execute, h]
  · simp [execute, h]

/-- Witness for C4 on a freshly shut-down pool of size 2. -/
theorem c4_execute_after_shutdown_witness :
    ((shutdown (initPool 2)).1.isShutdown = true)
    ∧ (execute ⟨0, "t"⟩ (shutdown (initPool 2)).1
        = ((shutdown (initPool 2)).1, some (Outcome.rejected 0 "Worker pool is shutdown"))
      ∧ getStatus (execute ⟨0, "t"⟩ (shutdown (initPool 2)).1).1
        = getStatus (shutdown (initPool 2)).1) :=
  ⟨by decide, c4_execute_after_shutdown (shutdown (initPool 2)).1 ⟨0, "t"⟩ (by decide)⟩

/-- C3: `shutdown()` rejects every one of the M queued tasks with the
shutting-down error (and only those), leaves `getStatus()` reporting
`total = 0, available = 0, queued = 0`, and a repeated `shutdown()` on the
emptied pool is a no-op delivering no further rejections. -/
theorem c3_shutdown_behavior (s : PoolState) :
    (shutdown s).2
      = s.taskQueue.map (fun qt => Outcome.rejected qt.caller "Worker pool is shutting down")
    ∧ (shutdown s).2.length = s.taskQueue.length
    ∧ getStatus (shutdown s).1 = { total := 0, available := 0, queued := 0 }
    ∧ shutdown (shutdown s).1 = ((shutdown s).1, []) := by
  refine ⟨rfl, by simp [shutdown], by simp [shutdown, getStatus], ?_⟩
  simp [shutdown]

/-- Every pool transition preserves the queue-traffic invariant. -/
theorem queueInv_step (s : PoolState) (g : Ghost) (e : Event) (h : QueueInv s g) :
    QueueInv (step s e).1 (stepGhost s g e) := by
  obtain ⟨h₁, h₂, h₃⟩ := h
  cases e with
  | submit qt =>
    cases hs : s.isShutdown with
    | true =>
      simp only [step, execute, stepGhost, hs, if_true]
      exact ⟨h₁, h₂, h₃⟩
    | false =>
      rcases hp : jsPop s.availableWorkers with ⟨ow, rest⟩
      cases ow with
      | some w =>
        simp only [step, execute, stepGhost, hs, if_false, hp, Bool.false_eq_true]
        exact ⟨h₁, fun _ => h₂ hs, fun hc => Bool.noConfusion hc⟩
      | none =>
        simp only [step, execute, stepGhost, hs, if_false, hp, Bool.false_eq_true]
        refine ⟨?_, ?_, ?_⟩
        · have hcl : g.cleared = [] := h₂ hs
          simp only [h₁, hcl]
          simp
        · intro _
          exact h₂ hs
        · intro hc
          exact Bool.noConfusion hc
  | message w res =>
    cases hb : busyTask w s with
    | none =>
      simp only [step, onMessage, stepGhost, hb]
      exact ⟨h₁, h₂, h₃⟩
    | some qt =>
      by_cases ht : w ∈ s.terminated
      · simp only [step, onMessage, stepGhost, hb, ht, if_true]
        exact ⟨h₁, h₂, h₃⟩
      · cases hq : s.taskQueue with
        | nil =>
          simp only [step, onMessage, stepGhost, hb, ht, if_false, cleanup, hq]
          exact ⟨by simpa [hq] using h₁, h₂, fun hst => rfl⟩
        | cons next rest =>
          simp only [step, onMessage, stepGhost, hb, ht, if_false, cleanup, runTask, hq]
          refine ⟨?_, h₂, ?_⟩
          · rw [h₁, hq]
            simp
          · intro hst
            have hempty := h₃ hst
            rw [hq] at hempty
            cases hempty
  | workerError w msg =>
    cases hb : busyTask w s with
    | none =>
      simp only [step, onError, stepGhost, hb]
      exact ⟨h₁, h₂, h₃⟩
    | some qt =>
      by_cases ht : w ∈ s.terminated
      · simp only [step, onError, stepGhost, hb, ht, if_true]
        exact ⟨h₁, h₂, h₃⟩
      · cases hq : s.taskQueue with
        | nil =>
          simp only [step, onError, stepGhost, hb, ht, if_false, cleanup, hq]
          exact ⟨by simpa [hq] using h₁, h₂, fun hst => rfl⟩
        | cons next rest =>
          simp only [step, onError, stepGhost, hb, ht, if_false, cleanup, runTask, hq]
          refine ⟨?_, h₂, ?_⟩
          · rw [h₁, hq]
            simp
          · intro hst
            have hempty := h₃ hst
            rw [hq] at hempty
            cases hempty
  | timeoutFire w t =>
    cases hb : busyTask w s with
    | none =>
      simp only [step, onTimeout, stepGhost, hb]
      exact ⟨h₁, h₂, h₃⟩
    | some qt =>
      simp only [step, onTimeout, stepGhost, hb]
      exact ⟨h₁, h₂, h₃⟩
  | shutdownCall =>
    simp only [step, shutdown, stepGhost]
    refine ⟨?_, ?_, fun _ => rfl⟩
    · cases hs : s.isShutdown with
      | false =>
        have hcl : g.cleared = [] := h₂ hs
        rw [h₁, hcl]
        simp
      | true =>
        have hq : s.taskQueue = [] := h₃ hs
        rw [h₁, hq]
        simp
    · intro hc
      cases hc

/-- Running any event sequence preserves the queue-traffic invariant. -/
theorem queueInv_run (es : List Event) : ∀ (s : PoolState) (g : Ghost),
    QueueInv s g → QueueInv (runEvents s g es).1 (runEvents s g es).2 := by
  induction es with
  | nil => intro s g h; exact h
  | cons e es ih =>
    intro s g h
    simp only [runEvents]
    exact ih _ _ (queueInv_step s g e h)

/-- C5: from a fresh pool, along every event sequence, the tasks ever
enqueued are exactly the queue-dispatched tasks followed by the tasks still
queued followed by the shutdown-cleared tasks, in order — so queued dispatch
is strict FIFO (the dispatch sequence is a prefix of the enqueue sequence)
and the queue is never reordered. -/
theorem c5_queue_fifo (size : Nat) (es : List Event) :
    (runEvents (initPool size) ⟨[], [], []⟩ es).2.enq
      = (runEvents (initPool size) ⟨[], [], []⟩ es).2.disp
        ++ (runEvents (initPool size) ⟨[], [], []⟩ es).1.taskQueue
        ++ (runEvents (initPool size) ⟨[], [], []⟩ es).2.cleared :=
  (queueInv_run es (initPool size) ⟨[], [], []⟩ ⟨rfl, fun _ => rfl, fun _ => rfl⟩).1

/-- C7 counterexample: `processJson` is a registered type, yet submitting the
identical task at two different wall-clock instants yields different data
(the `enrich` default transform stamps `Date.now()` into every item), so the
claim "for every registered task type ... equal data both times" is false. -/
theorem c7_counterexample :
    "processJson" ∈ registeredTypes
    ∧ runnerOnMessage ⟨"processJson", .obj [("items", .arr [.num 1])]⟩ 0 5
      ≠ runnerOnMessage ⟨"processJson", .obj [("items", .arr [.num 1])]⟩ 1 5 := by
  decide

/-- C7 amended: for every task type other than `processJson` (whose default
`enrich` transform embeds the current time in its output), the worker's result
for a task is a function of the payload alone: resubmitting the identical task
at any two wall-clock instants — on the same or a different unit, since units
carry no state of their own — yields identical results. -/
theorem c7_amended_determinism (ty : String) (d : JVal) (n₁ n₂ : Int) (elapsed : Nat)
    (h : ty ≠ "processJson") :
    runnerOnMessage ⟨ty, d⟩ n₁ elapsed = runnerOnMessage ⟨ty, d⟩ n₂ elapsed := by
  have hconst : ∀ f, taskHandlers ty = some f → f d n₁ = f d n₂ := by
    intro f hf
    unfold taskHandlers at hf
    split at hf <;>
      first
        | exact absurd rfl h
        | (cases hf; try rfl)
  cases hh : taskHandlers ty with
  | none => simp [runnerOnMessage, hh]
  | some f =>
    simp only [runnerOnMessage, hh]
    rw [hconst f hh]

/-- Witness for C7's amended claim at the type `"fibonacci"`. -/
theorem c7_amended_determinism_witness :
    ("fibonacci" ≠ "processJson")
    ∧ runnerOnMessage ⟨"fibonacci", .obj [("n", .num 5)]⟩ 0 2
      = runnerOnMessage ⟨"fibonacci", .obj [("n", .num 5)]⟩ 1 2 :=
  ⟨by decide, c7_amended_determinism "fibonacci" (.obj [("n", .num 5)]) 0 1 2 (by decide)⟩

/-- C1 counterexample: on a pool of size 1, dispatch a task and let the timer
fire.  The `execute` rejects with the timeout error and `total` is unchanged,
but no replacement worker is constructed: `workers` still holds only the
terminated worker 0, and `available` is 0, not the pre-dispatch 1 — capacity
is permanently lost, refuting "replaced by a freshly constructed idle unit ...
available returns to its pre-dispatch value". -/
theorem c1_counterexample :
    (getStatus (initPool 1)).available = 1
    ∧ (execute ⟨0, "t"⟩ (initPool 1)).2 = none
    ∧ (onTimeout 0 30000 (execute ⟨0, "t"⟩ (initPool 1)).1).2
      = some (Outcome.rejected 0 "Task timeout after 30000ms")
    ∧ (getStatus (onTimeout 0 30000 (execute ⟨0, "t"⟩ (initPool 1)).1).1).total
      = (getStatus (initPool 1)).total
    ∧ (onTimeout 0 30000 (execute ⟨0, "t"⟩ (initPool 1)).1).1.workers = [0]
    ∧ (onTimeout 0 30000 (execute ⟨0, "t"⟩ (initPool 1)).1).1.terminated = [0]
    ∧ (getStatus (onTimeout 0 30000 (execute ⟨0, "t"⟩ (initPool 1)).1).1).available
      ≠ (getStatus (initPool 1)).available := by
  decide

/-- C1 amended: when a task is dispatched to an idle worker and the per-task
timer fires first, `execute` rejects with the timeout error and
`getStatus().total` (and `queued`) are unchanged — but the terminated worker
is not replaced: the `workers` array is unchanged (still counting the dead
worker), the worker is merely marked terminated, and `available` ends one
below its pre-dispatch value instead of recovering. -/
theorem c1_amended_timeout (s : PoolState) (qt : QueuedTask) (w : Nat) (t : Nat)
    (hs : s.isShutdown = false) (hw : s.availableWorkers.getLast? = some w) :
    (execute qt s).2 = none
    ∧ (onTimeout w t (execute qt s).1).2
      = some (Outcome.rejected qt.caller ("Task timeout after " ++ toString t ++ "ms"))
    ∧ (getStatus (onTimeout w t (execute qt s).1).1).total = (getStatus s).total
    ∧ (getStatus (onTimeout w t (execute qt s).1).1).queued = (getStatus s).queued
    ∧ (getStatus (onTimeout w t (execute qt s).1).1).available + 1 = (getStatus s).available
    ∧ (onTimeout w t (execute qt s).1).1.workers = s.workers
    ∧ w ∈ (onTimeout w t (execute qt s).1).1.terminated := by
  have hne : s.availableWorkers ≠ [] := by
    intro hnil
    rw [hnil] at hw
    cases hw
  have he1 : (execute qt s).1
      = runTask w qt { s with availableWorkers := s.availableWorkers.dropLast } := by
    simp [execute, hs, jsPop, hw]
  have he2 : (execute qt s).2 = none := by
    simp [execute, hs, jsPop, hw]
  have hb : busyTask w (runTask w qt { s with availableWorkers := s.availableWorkers.dropLast })
      = some qt := by
    simp [busyTask, runTask]
  have hto : onTimeout w t (runTask w qt { s with availableWorkers := s.availableWorkers.dropLast })
      = ({ s with
            availableWorkers := s.availableWorkers.dropLast
            busy := (((w, qt) :: s.busy).filter (fun p => p.fst ≠ w))
            terminated := w :: s.terminated },
          some (Outcome.rejected qt.caller ("Task timeout after " ++ toString t ++ "ms"))) := by
    simp only [onTimeout, hb]
    simp [runTask]
  rw [he1, hto]
  refine ⟨he2, rfl, rfl, rfl, ?_, rfl, List.mem_cons_self w s.terminated⟩
  simp only [getStatus, List.length_dropLast]
  have hpos : 0 < s.availableWorkers.length := List.length_pos.mpr hne
  omega

/-- Witness for C1's amended claim on a fresh pool of size 1. -/
theorem c1_amended_timeout_witness :
    ((initPool 1).isShutdown = false)
    ∧ ((initPool 1).availableWorkers.getLast? = some 0)
    ∧ ((execute ⟨3, "t"⟩ (initPool 1)).2 = none
      ∧ (onTimeout 0 7 (execute ⟨3, "t"⟩ (initPool 1)).1).2
        = some (Outcome.rejected 3 ("Task timeout after " ++ toString 7 ++ "ms"))
      ∧ (getStatus (onTimeout 0 7 (execute ⟨3, "t"⟩ (initPool 1)).1).1).total
        = (getStatus (initPool 1)).total
      ∧ (getStatus (onTimeout 0 7 (execute ⟨3, "t"⟩ (initPool 1)).1).1).queued
        = (getStatus (initPool 1)).queued
      ∧ (getStatus (onTimeout 0 7 (execute ⟨3, "t"⟩ (initPool 1)).1).1).available + 1
        = (getStatus (initPool 1)).available
      ∧ (onTimeout 0 7 (execute ⟨3, "t"⟩ (initPool 1)).1).1.workers = (initPool 1).workers
      ∧ 0 ∈ (onTimeout 0 7 (execute ⟨3, "t"⟩ (initPool 1)).1).1.terminated) :=
  ⟨by decide, by decide,
    c1_amended_timeout (initPool 1) ⟨3, "t"⟩ 0 7 (by decide) (by decide)⟩

/-- C2 counterexample: on a pool of size 1 with one task in flight on worker 0
and one task queued, a worker `error` event leaves worker 0 in `workers`,
terminates nothing, and immediately hands the queued task to the very same
worker 0 — the failed unit is reused, refuting "terminated and replaced by a
new unit rather than being reused for subsequent tasks". -/
theorem c2_counterexample :
    (onError 0 "boom" (execute ⟨1, "u"⟩ (execute ⟨0, "t"⟩ (initPool 1)).1).1).2
      = some (Outcome.rejected 0 "boom")
    ∧ (onError 0 "boom" (execute ⟨1, "u"⟩ (execute ⟨0, "t"⟩ (initPool 1)).1).1).1.busy
      = [(0, ⟨1, "u"⟩)]
    ∧ (onError 0 "boom" (execute ⟨1, "u"⟩ (execute ⟨0, "t"⟩ (initPool 1)).1).1).1.terminated
      = []
    ∧ (onError 0 "boom" (execute ⟨1, "u"⟩ (execute ⟨0, "t"⟩ (initPool 1)).1).1).1.workers
      = [0] := by
  decide

/-- C2 amended: when a worker with an in-flight task emits `error`, the
caller's `execute` rejects with that error, but the failed worker is neither
terminated nor replaced: `workers` and `terminated` are unchanged, and
`cleanup` reuses the worker — it receives the head of the queue if one is
waiting, else returns to `availableWorkers`. -/
theorem c2_amended_error_reuse (s : PoolState) (w : Nat) (qt : QueuedTask) (msg : String)
    (hb : busyTask w s = some qt) (ht : w ∉ s.terminated) :
    (onError w msg s).2 = some (Outcome.rejected qt.caller msg)
    ∧ (onError w msg s).1.workers = s.workers
    ∧ (onError w msg s).1.terminated = s.terminated
    ∧ (s.taskQueue = [] →
        (onError w msg s).1.availableWorkers = s.availableWorkers ++ [w])
    ∧ (∀ next rest, s.taskQueue = next :: rest →
        (onError w msg s).1.busy = (w, next) :: s.busy.filter (fun p => p.fst ≠ w)
        ∧ (onError w msg s).1.taskQueue = rest) := by
  have ho : onError w msg s = (cleanup w s, some (Outcome.rejected qt.caller msg)) := by
    simp [onError, hb, ht]
  rw [ho]
  refine ⟨rfl, ?_, ?_, ?_, ?_⟩
  · simp only [cleanup]
    cases s.taskQueue <;> rfl
  · simp only [cleanup]
    cases s.taskQueue <;> rfl
  · intro hq
    simp [cleanup, hq]
  · intro next rest hq
    simp [cleanup, runTask, hq]

/-- Witness for C2's amended claim: one in-flight task, one queued task. -/
theorem c2_amended_error_reuse_witness :
    (busyTask 0 ⟨[0], [], [⟨6, "b"⟩], [(0, ⟨5, "a"⟩)], [], false⟩ = some ⟨5, "a"⟩)
    ∧ ((0 : Nat) ∉ PoolState.terminated ⟨[0], [], [⟨6, "b"⟩], [(0, ⟨5, "a"⟩)], [], false⟩)
    ∧ ((onError 0 "boom" ⟨[0], [], [⟨6, "b"⟩], [(0, ⟨5, "a"⟩)], [], false⟩).2
        = some (Outcome.rejected 5 "boom")
      ∧ (onError 0 "boom" ⟨[0], [], [⟨6, "b"⟩], [(0, ⟨5, "a"⟩)], [], false⟩).1.workers
        = PoolState.workers ⟨[0], [], [⟨6, "b"⟩], [(0, ⟨5, "a"⟩)], [], false⟩
      ∧ (onError 0 "boom" ⟨[0], [], [⟨6, "b"⟩], [(0, ⟨5, "a"⟩)], [], false⟩).1.terminated
        = PoolState.terminated ⟨[0], [], [⟨6, "b"⟩], [(0, ⟨5, "a"⟩)], [], false⟩
      ∧ (PoolState.taskQueue ⟨[0], [], [⟨6, "b"⟩], [(0, ⟨5, "a"⟩)], [], false⟩ = [] →
          (onError 0 "boom" ⟨[0], [], [⟨6, "b"⟩], [(0, ⟨5, "a"⟩)], [], false⟩).1.availableWorkers
            = PoolState.availableWorkers ⟨[0], [], [⟨6, "b"⟩], [(0, ⟨5, "a"⟩)], [], false⟩ ++ [0])
      ∧ (∀ next rest,
          PoolState.taskQueue ⟨[0], [], [⟨6, "b"⟩], [(0, ⟨5, "a"⟩)], [], false⟩ = next :: rest →
          (onError 0 "boom" ⟨[0], [], [⟨6, "b"⟩], [(0, ⟨5, "a"⟩)], [], false⟩).1.busy
            = (0, next) :: (PoolState.busy ⟨[0], [], [⟨6, "b"⟩], [(0, ⟨5, "a"⟩)], [], false⟩).filter
                (fun p => p.fst ≠ 0)
          ∧ (onError 0 "boom" ⟨[0], [], [⟨6, "b"⟩], [(0, ⟨5, "a"⟩)], [], false⟩).1.taskQueue
            = rest)) :=
  ⟨by decide, by decide,
    c2_amended_error_reuse ⟨[0], [], [⟨6, "b"⟩], [(0, ⟨5, "a"⟩)], [], false⟩ 0 ⟨5, "a"⟩ "boom"
      (by decide) (by decide)⟩

end Prexis
